import Mathlib

/-
Verification of the SDF scene evaluator, CSG blending algebra and CPU
raymarching renderer of the Vehement repository.

The embedding follows the two relevant sources:
  - tools/render_sdf_cpu.py      (primitive SDFs, scene evaluation, raymarch,
                                  shading, image assembly)
  - tools/add_advanced_sdf_blending.py
                                 (the C++ text of the advanced smooth CSG
                                  operators that the script inserts)

Python floats are modelled as real numbers; the value float('inf') that the
scene evaluator uses as its initial accumulator (and as the distance of an
unrecognized primitive type) is modelled with EReal, whose top element plays
the role of +infinity exactly as the comparisons in the code use it.
-/

noncomputable section

namespace Vehement

/-! ## Vectors (numpy 3-vectors, componentwise arithmetic) -/

structure Vec3 where
  x : ℝ
  y : ℝ
  z : ℝ

instance : Add Vec3 := ⟨fun a b => ⟨a.x + b.x, a.y + b.y, a.z + b.z⟩⟩
instance : Sub Vec3 := ⟨fun a b => ⟨a.x - b.x, a.y - b.y, a.z - b.z⟩⟩
instance : Neg Vec3 := ⟨fun a => ⟨-a.x, -a.y, -a.z⟩⟩
instance : Mul Vec3 := ⟨fun a b => ⟨a.x * b.x, a.y * b.y, a.z * b.z⟩⟩
instance : Div Vec3 := ⟨fun a b => ⟨a.x / b.x, a.y / b.y, a.z / b.z⟩⟩
instance : SMul ℝ Vec3 := ⟨fun c v => ⟨c * v.x, c * v.y, c * v.z⟩⟩
instance : HDiv Vec3 ℝ Vec3 := ⟨fun v c => ⟨v.x / c, v.y / c, v.z / c⟩⟩
instance : HMul Vec3 ℝ Vec3 := ⟨fun v c => ⟨v.x * c, v.y * c, v.z * c⟩⟩

def dot3 (a b : Vec3) : ℝ := a.x * b.x + a.y * b.y + a.z * b.z

def cross3 (a b : Vec3) : Vec3 :=
  ⟨a.y * b.z - a.z * b.y, a.z * b.x - a.x * b.z, a.x * b.y - a.y * b.x⟩

def vabs (v : Vec3) : Vec3 := ⟨|v.x|, |v.y|, |v.z|⟩

def vmax (v : Vec3) (c : ℝ) : Vec3 := ⟨max v.x c, max v.y c, max v.z c⟩

def norm3 (v : Vec3) : ℝ := Real.sqrt (v.x * v.x + v.y * v.y + v.z * v.z)

def norm2 (a b : ℝ) : ℝ := Real.sqrt (a * a + b * b)

def clampR (v lo hi : ℝ) : ℝ := min (max v lo) hi

def clampV (v : Vec3) (lo hi : ℝ) : Vec3 :=
  ⟨clampR v.x lo hi, clampR v.y lo hi, clampR v.z lo hi⟩

/-- Source: normalize in render_sdf_cpu.py — returns the vector unchanged
when its length is below 1e-10, else divides by the length. -/
def normalize (v : Vec3) : Vec3 :=
  if norm3 v < 1e-10 then v else v / norm3 v

/-! ## Primitive distance functions (render_sdf_cpu.py) -/

def sdf_sphere (p : Vec3) (radius : ℝ) : ℝ := norm3 p - radius

def sdf_box (p : Vec3) (size : Vec3) : ℝ :=
  let q := vabs p - size
  norm3 (vmax q 0) + min (max q.x (max q.y q.z)) 0

def sdf_rounded_box (p : Vec3) (size : Vec3) (radius : ℝ) : ℝ :=
  let q := vabs p - size
  norm3 (vmax q 0) + min (max q.x (max q.y q.z)) 0 - radius

/-- Source: sdf_ellipsoid — the degenerate denominator guard returns the
constant -1.0. -/
def sdf_ellipsoid (p : Vec3) (radii : Vec3) : ℝ :=
  let k0 := norm3 (p / radii)
  let k1 := norm3 (p / (radii * radii))
  if k1 > 1e-10 then k0 * (k0 - 1) / k1 else -1

def sdf_capsule (p : Vec3) (radius height : ℝ) : ℝ :=
  let h := height / 2
  let py := p.y - clampR p.y (-h) h
  Real.sqrt (py * py + (p.x * p.x + p.z * p.z)) - radius

def sdf_torus (p : Vec3) (major_radius minor_radius : ℝ) : ℝ :=
  let q0 := norm2 p.x p.z - major_radius
  norm2 q0 p.y - minor_radius

def sdf_cylinder (p : Vec3) (radius height : ℝ) : ℝ :=
  let d0 := norm2 p.x p.z - radius
  let d1 := |p.y| - height / 2
  min (max d0 d1) 0 + norm2 (max d0 0) (max d1 0)

/-! ## CSG blending operators (add_advanced_sdf_blending.py, inserted C++) -/

def mixR (a b h : ℝ) : ℝ := a * (1 - h) + b * h

/-- Modelled from the spec: the quadratic SmoothUnion implementation is not
among the repository sources (the patch script only inserts its declaration
into the header; the body lives in the engine repository the script edits).
The spec gives h = clamp(0.5 + 0.5·(d2−d1)/k, 0, 1) and mix(d2,d1,h) −
k·h·(1−h), and mandates the special case k = 0 → min(d1,d2) for all four
smooth-union families. -/
def SmoothUnion (d1 d2 k : ℝ) : ℝ :=
  if k = 0 then min d1 d2
  else
    let h := clampR (0.5 + 0.5 * (d2 - d1) / k) 0 1
    mixR d2 d1 h - k * h * (1 - h)

/-- Source: ExponentialSmoothUnion in the inserted C++ text. -/
def ExponentialSmoothUnion (d1 d2 k : ℝ) : ℝ :=
  if k = 0 then min d1 d2
  else
    -Real.logb 2 ((2 : ℝ) ^ (-k * d1) + (2 : ℝ) ^ (-k * d2)) / k

/-- Source: PowerSmoothUnion in the inserted C++ text. -/
def PowerSmoothUnion (d1 d2 k : ℝ) : ℝ :=
  if k = 0 then min d1 d2
  else
    let a := d1 ^ k
    let b := d2 ^ k
    ((a * b) / (a + b)) ^ (1 / k)

/-- Source: CubicSmoothUnion in the inserted C++ text. -/
def CubicSmoothUnion (d1 d2 k : ℝ) : ℝ :=
  if k = 0 then min d1 d2
  else
    let h := max (k - |d1 - d2|) 0 / k
    let m := h * h * h * 0.5
    let s := m * k * (1 / 3)
    if d1 < d2 then d1 - s else d2 - s

/-- Source: DistanceAwareSmoothUnion in the inserted C++ text. -/
def DistanceAwareSmoothUnion (d1 d2 k minDist : ℝ) : ℝ :=
  let dist := |d1 - d2|
  if dist > minDist then min d1 d2
  else
    let falloff := 1 - dist / minDist
    let effectiveK := k * falloff
    SmoothUnion d1 d2 effectiveK

/-! ## Data model of the asset description (render_sdf_cpu.py reads) -/

/-- Shape parameter bag: the code probes each key with a default, so a
missing key behaves like the recorded default. -/
structure Params where
  radius : Option ℝ := none
  size : Option Vec3 := none
  radii : Option Vec3 := none
  height : Option ℝ := none
  majorRadius : Option ℝ := none
  minorRadius : Option ℝ := none

structure Material where
  albedo : Option Vec3 := none
  metallic : Option ℝ := none
  roughness : Option ℝ := none
  emissive : Option Vec3 := none
  emissiveStrength : Option ℝ := none

structure Transform where
  position : Vec3

inductive CsgKind
  | union
  | subtraction
  | intersection

/-- Declared CSG operation of a primitive, part of the asset data model; the
renderer in render_sdf_cpu.py never reads it. -/
structure CsgOp where
  kind : CsgKind
  k : ℝ := 0

/-- One entry of sdfModel.primitives. The shape kind is the free-form string
the code compares against the seven supported names. -/
structure Prim where
  type : String
  transform : Transform
  params : Params := {}
  material : Option Material := none
  csgOperation : Option CsgOp := none

/-- Source: evaluate_primitive — transform the point into the primitive's
local frame (subtract position), branch on the type string with per-type
parameter defaults, unrecognized types yield +infinity. The third argument
is passed by scene_sdf in the code and never used. -/
def evaluate_primitive (p : Vec3) (prim : Prim) (primitives : List Prim) :
    EReal × Material :=
  let p_local := p - prim.transform.position
  let params := prim.params
  let d : EReal :=
    if prim.type = "Sphere" then
      ((sdf_sphere p_local (params.radius.getD 0.5) : ℝ) : EReal)
    else if prim.type = "Box" then
      ((sdf_box p_local (params.size.getD ⟨0.5, 0.5, 0.5⟩) : ℝ) : EReal)
    else if prim.type = "RoundedBox" then
      ((sdf_rounded_box p_local (params.size.getD ⟨0.5, 0.5, 0.5⟩)
        (params.radius.getD 0.1) : ℝ) : EReal)
    else if prim.type = "Ellipsoid" then
      ((sdf_ellipsoid p_local (params.radii.getD ⟨0.5, 0.5, 0.5⟩) : ℝ) : EReal)
    else if prim.type = "Capsule" then
      ((sdf_capsule p_local (params.radius.getD 0.2)
        (params.height.getD 1) : ℝ) : EReal)
    else if prim.type = "Torus" then
      ((sdf_torus p_local (params.majorRadius.getD 0.5)
        (params.minorRadius.getD 0.1) : ℝ) : EReal)
    else if prim.type = "Cylinder" then
      ((sdf_cylinder p_local (params.radius.getD 0.3)
        (params.height.getD 1) : ℝ) : EReal)
    else (⊤ : EReal)
  (d, prim.material.getD {})

/-- Loop body of scene_sdf: running minimum distance (initially +infinity)
and material of the currently governing primitive (initially None), updated
on strict improvement only. -/
def sceneGo (p : Vec3) (all : List Prim) :
    List Prim → EReal → Option Material → EReal × Option Material
  | [], min_dist, closest_material => (min_dist, closest_material)
  | prim :: rest, min_dist, closest_material =>
      let dm := evaluate_primitive p prim all
      if dm.1 < min_dist then sceneGo p all rest dm.1 (some dm.2)
      else sceneGo p all rest min_dist closest_material

/-- Source: scene_sdf — union of all primitives by min-reduction with strict
comparison, initial accumulator float('inf') and material None. -/
def scene_sdf (p : Vec3) (primitives : List Prim) : EReal × Option Material :=
  sceneGo p primitives primitives ⊤ none

/-- Individual distance of one primitive inside a given scene list. -/
def primDist (p : Vec3) (all : List Prim) (q : Prim) : EReal :=
  (evaluate_primitive p q all).1

/-! ## Concrete scenes used as explicit inputs -/

def sphereUnit : Prim :=
  { type := "Sphere", transform := ⟨⟨0, 0, 0⟩⟩,
    params := { radius := some 1 },
    csgOperation := some ⟨CsgKind.union, 0⟩ }

def sphereTwo : Prim :=
  { type := "Sphere", transform := ⟨⟨0, 0, 0⟩⟩,
    params := { radius := some 2 },
    csgOperation := some ⟨CsgKind.subtraction, 0⟩ }

def sphereA : Prim :=
  { type := "Sphere", transform := ⟨⟨0, 0, 0⟩⟩,
    material := some { albedo := some ⟨1, 0, 0⟩ } }

def sphereB : Prim :=
  { type := "Sphere", transform := ⟨⟨0, 0, 0⟩⟩,
    material := some { albedo := some ⟨0, 1, 0⟩ } }

def widgetA : Prim :=
  { type := "Widget", transform := ⟨⟨0, 0, 0⟩⟩,
    material := some { albedo := some ⟨1, 0, 0⟩ } }

def widgetB : Prim :=
  { type := "Widget", transform := ⟨⟨0, 0, 0⟩⟩ }

/-! ## Raymarcher (render_sdf_cpu.py raymarch) -/

def stepPoint (o dir : Vec3) (t : ℝ) : Vec3 := o + t • dir

/-- Scene distance sampled at travel t along the ray. -/
def stepDist (o dir : Vec3) (prims : List Prim) (t : ℝ) : EReal :=
  (scene_sdf (stepPoint o dir t) prims).1

/-- Travel accumulation t += d of one raymarch iteration. The recursion in
raymarchAux only continues when the accumulated travel is at most max_dist,
which forces the step to be finite, so taking toReal is exact there. -/
def nextT (o dir : Vec3) (prims : List Prim) (t : ℝ) : ℝ :=
  t + (stepDist o dir prims t).toReal

/-- Travel after n raymarch iterations, starting from t = 0. -/
def marchT (o dir : Vec3) (prims : List Prim) : ℕ → ℝ
  | 0 => 0
  | n + 1 => nextT o dir prims (marchT o dir prims n)

/-- Source: the loop body of raymarch — evaluate the scene, return a hit
when the distance drops below 0.001, stop with a miss when the accumulated
travel exceeds max_dist, otherwise advance by the distance. -/
def raymarchAux (o dir : Vec3) (prims : List Prim) (max_dist : ℝ) :
    ℕ → ℝ → Option (ℝ × Option Material × Vec3)
  | 0, _ => none
  | fuel + 1, t =>
      let p := stepPoint o dir t
      let dm := scene_sdf p prims
      if dm.1 < ((0.001 : ℝ) : EReal) then some (t, dm.2, p)
      else if ((t : ℝ) : EReal) + dm.1 > ((max_dist : ℝ) : EReal) then none
      else raymarchAux o dir prims max_dist fuel (t + dm.1.toReal)

/-- Source: raymarch with its default budget of 64 steps and maximum travel
distance 20.0, starting at t = 0. -/
def raymarch (o dir : Vec3) (prims : List Prim)
    (max_steps : ℕ := 64) (max_dist : ℝ := 20) :
    Option (ℝ × Option Material × Vec3) :=
  raymarchAux o dir prims max_dist max_steps 0

/-- Number of scene evaluations the raymarch loop performs: one per
iteration entered. -/
def raymarchCountAux (o dir : Vec3) (prims : List Prim) (max_dist : ℝ) :
    ℕ → ℝ → ℕ
  | 0, _ => 0
  | fuel + 1, t =>
      let dm := scene_sdf (stepPoint o dir t) prims
      if dm.1 < ((0.001 : ℝ) : EReal) then 1
      else if ((t : ℝ) : EReal) + dm.1 > ((max_dist : ℝ) : EReal) then 1
      else 1 + raymarchCountAux o dir prims max_dist fuel (t + dm.1.toReal)

def raymarchEvals (o dir : Vec3) (prims : List Prim) : ℕ :=
  raymarchCountAux o dir prims 20 64 0

/-! ## Normal estimation, camera, shading, image assembly -/

/-- Source: calculate_normal — forward differences of the scene distance at
eps = 0.001. The differences are real for every scene that produced a hit;
toReal mediates the EReal-valued scene distances. -/
def calculate_normal (p : Vec3) (prims : List Prim) : Vec3 :=
  let eps : ℝ := 0.001
  let d := (scene_sdf p prims).1
  let dx := (scene_sdf (p + ⟨eps, 0, 0⟩) prims).1
  let dy := (scene_sdf (p + ⟨0, eps, 0⟩) prims).1
  let dz := (scene_sdf (p + ⟨0, 0, eps⟩) prims).1
  normalize ⟨(dx - d).toReal, (dy - d).toReal, (dz - d).toReal⟩

/-- Source: the ray-direction computation of render_pixel — NDC from the
pixel coordinates, orthonormal-ish camera basis, fixed 35 degree field of
view. -/
def pixelRayDir (x y width height : ℕ) (camera_pos camera_target : Vec3) :
    Vec3 :=
  let ndc_x := (2 * (x : ℝ) / (width : ℝ) - 1) * ((width : ℝ) / (height : ℝ))
  let ndc_y := -(2 * (y : ℝ) / (height : ℝ) - 1)
  let forward := normalize (camera_target - camera_pos)
  let right := normalize (cross3 forward ⟨0, 1, 0⟩)
  let up := normalize (cross3 right forward)
  let fov := 35 * Real.pi / 180
  normalize (forward + (ndc_x * Real.tan (fov / 2)) • right
    + (ndc_y * Real.tan (fov / 2)) • up)

/-- Source: render_pixel — raymarch through the pixel's ray; a miss is the
transparent pixel [0,0,0,0]; a hit is shaded with ambient 0.3, diffuse 0.7
times the Lambert term, emissive added, clamped and quantized to 8 bits with
alpha 255. The material defaults mirror the .get defaults of the code. -/
def render_pixel (x y width height : ℕ) (camera_pos camera_target : Vec3)
    (primitives : List Prim) (light_dir : Vec3) : List ℤ :=
  match raymarch camera_pos
      (pixelRayDir x y width height camera_pos camera_target) primitives with
  | none => [0, 0, 0, 0]
  | some (_t, material, hit_point) =>
      let normal := calculate_normal hit_point primitives
      let light_intensity := max 0 (dot3 normal (-light_dir))
      let mat := material.getD {}
      let albedo := mat.albedo.getD ⟨0.7, 0.7, 0.7⟩
      let emissive := mat.emissive.getD ⟨0, 0, 0⟩
      let emissive_strength := mat.emissiveStrength.getD 0
      let ambient : ℝ := 0.3
      let diffuse := 0.7 * light_intensity
      let color := albedo * (ambient + diffuse) + emissive * emissive_strength
      let c := clampV color 0 1
      [⌊c.x * 255⌋, ⌊c.y * 255⌋, ⌊c.z * 255⌋, 255]

/-! ## Asset data model (render_asset reads) -/

structure Camera where
  position : Option Vec3 := none
  lookAt : Option Vec3 := none
  fov : Option ℝ := none

structure Directional where
  direction : Option Vec3 := none
  intensity : Option ℝ := none

structure Lighting where
  directional : Directional := {}
  ambient : Option ℝ := none

structure SdfModel where
  primitives : List Prim := []
  camera : Camera := {}
  lighting : Lighting := {}

structure Asset where
  sdfModel : SdfModel := {}

/-- Source: render_asset — bail out with None when the primitive list is
empty, otherwise read camera and lighting with their defaults and produce
the height x width grid of rendered pixels. -/
def render_asset (asset : Asset) (width : ℕ := 512) (height : ℕ := 512) :
    Option (List (List (List ℤ))) :=
  let primitives := asset.sdfModel.primitives
  if primitives.isEmpty then none
  else
    let camera_data := asset.sdfModel.camera
    let camera_pos := camera_data.position.getD ⟨3, 1.8, 4⟩
    let camera_target := camera_data.lookAt.getD ⟨0, 1.2, 0⟩
    let light_dir := normalize
      (asset.sdfModel.lighting.directional.direction.getD ⟨-0.45, -1.2, -0.65⟩)
    some ((List.range height).map fun y =>
      (List.range width).map fun x =>
        render_pixel x y width height camera_pos camera_target primitives
          light_dir)

def emptyAsset : Asset := {}

/-! ## Claim C5 -/

def Vec3_mulV_def (a b : Vec3) :
    a * b = (⟨a.x * b.x, a.y * b.y, a.z * b.z⟩ : Vec3) := rfl

def Vec3_divV_def (a b : Vec3) :
    a / b = (⟨a.x / b.x, a.y / b.y, a.z / b.z⟩ : Vec3) := rfl

/-! ## Claim C10 -/

def setFov (asset : Asset) (fov : Option ℝ) : Asset :=
  { asset with sdfModel := { asset.sdfModel with
      camera := { asset.sdfModel.camera with fov := fov } } }

/-! ## Claim C9 -/

/-- The shading formula exactly as the specification states it: color =
albedo * (ambient + diffuse * max(0, dot(normal, -lightDir))) + emissive *
emissiveStrength with ambient 0.3 and diffuse coefficient 0.7, clamped to
[0,1] per channel, then 8-bit quantized with alpha 255. Stated from the
spec, for comparison with render_pixel. -/
def shadeSpec (albedo emissive : Vec3) (emissiveStrength : ℝ)
    (normal light_dir : Vec3) : List ℤ :=
  let i := max 0 (dot3 normal (-light_dir))
  let cr := clampR (albedo.x * (0.3 + 0.7 * i) + emissive.x * emissiveStrength)
    0 1
  let cg := clampR (albedo.y * (0.3 + 0.7 * i) + emissive.y * emissiveStrength)
    0 1
  let cb := clampR (albedo.z * (0.3 + 0.7 * i) + emissive.z * emissiveStrength)
    0 1
  [⌊cr * 255⌋, ⌊cg * 255⌋, ⌊cb * 255⌋, 255]

/-! ## Concrete evaluation helpers for the hit witness -/

def Vec3_add_def (a b : Vec3) :
    a + b = (⟨a.x + b.x, a.y + b.y, a.z + b.z⟩ : Vec3) := rfl

def Vec3_smul_def (c : ℝ) (v : Vec3) :
    c • v = (⟨c * v.x, c * v.y, c * v.z⟩ : Vec3) := rfl

def Vec3_divR_def (v : Vec3) (c : ℝ) :
    v / c = (⟨v.x / c, v.y / c, v.z / c⟩ : Vec3) := rfl

/-! ## Claims C1 and C6 -/

/-- C1: every smooth CSG union operator of the blending algebra —
ExponentialSmoothUnion, PowerSmoothUnion, CubicSmoothUnion, the quadratic
SmoothUnion, and DistanceAwareSmoothUnion for every minDist — evaluated with
smoothing coefficient k = 0 equals the hard union min(d1, d2), for all finite
distances d1, d2. -/
theorem smooth_ops_at_zero_eq_min (d1 d2 minDist : ℝ) :
    ExponentialSmoothUnion d1 d2 0 = min d1 d2 ∧
    PowerSmoothUnion d1 d2 0 = min d1 d2 ∧
    CubicSmoothUnion d1 d2 0 = min d1 d2 ∧
    SmoothUnion d1 d2 0 = min d1 d2 ∧
    DistanceAwareSmoothUnion d1 d2 0 minDist = min d1 d2 := by
  refine ⟨if_pos rfl, if_pos rfl, if_pos rfl, if_pos rfl, ?_⟩
  unfold DistanceAwareSmoothUnion
  by_cases h : |d1 - d2| > minDist
  · rw [if_pos h]
  · rw [if_neg h]
    show SmoothUnion d1 d2 (0 * _) = min d1 d2
    rw [zero_mul]
    exact if_pos rfl

/-- C6: whenever the absolute difference of the two input distances exceeds
minDist, DistanceAwareSmoothUnion returns the hard union min(d1, d2) exactly,
with no smoothing applied. -/
theorem distance_aware_far_eq_min (d1 d2 k minDist : ℝ)
    (h : |d1 - d2| > minDist) :
    DistanceAwareSmoothUnion d1 d2 k minDist = min d1 d2 := by
  unfold DistanceAwareSmoothUnion
  rw [if_pos h]

/-- Witness for C6 at d1 = 5, d2 = 1, k = 3, minDist = 2. -/
theorem distance_aware_far_eq_min_witness :
    |(5 : ℝ) - 1| > 2 ∧ DistanceAwareSmoothUnion 5 1 3 2 = min 5 1 :=
  ⟨by norm_num, distance_aware_far_eq_min 5 1 3 2 (by norm_num)⟩

/-! ### Helper lemmas about the scene fold -/

lemma evaluate_primitive_all_irrel (p : Vec3) (q : Prim) (l1 l2 : List Prim) :
    evaluate_primitive p q l1 = evaluate_primitive p q l2 := rfl

lemma sceneGo_all_irrel (p : Vec3) (l1 l2 : List Prim) :
    ∀ (l : List Prim) (m : EReal) (mat : Option Material),
      sceneGo p l1 l m mat = sceneGo p l2 l m mat := by
  intro l
  induction l with
  | nil => intro m mat; rfl
  | cons q rest ih =>
      intro m mat
      simp only [sceneGo]
      rw [evaluate_primitive_all_irrel p q l2 l1]
      by_cases h : (evaluate_primitive p q l1).1 < m
      · rw [if_pos h, if_pos h, ih]
      · rw [if_neg h, if_neg h, ih]

lemma sceneGo_fst (p : Vec3) (all : List Prim) :
    ∀ (l : List Prim) (m : EReal) (mat : Option Material),
      (sceneGo p all l m mat).1 =
        min m ((l.map (primDist p all)).foldr min ⊤) := by
  intro l
  induction l with
  | nil => intro m mat; simp [sceneGo]
  | cons q rest ih =>
      intro m mat
      simp only [sceneGo, List.map_cons, List.foldr_cons, primDist]
      by_cases h : (evaluate_primitive p q all).1 < m
      · rw [if_pos h, ih]
        rw [min_eq_right ((min_le_left _ _).trans h.le)]
      · rw [if_neg h, ih]
        rw [← min_assoc, min_eq_left (not_lt.mp h)]

lemma sceneGo_no_improve (p : Vec3) (all : List Prim) :
    ∀ (l : List Prim) (m : EReal) (mat : Option Material),
      (∀ q ∈ l, ¬ primDist p all q < m) → sceneGo p all l m mat = (m, mat) := by
  intro l
  induction l with
  | nil => intro m mat _; rfl
  | cons q rest ih =>
      intro m mat h
      simp only [primDist] at h
      simp only [sceneGo]
      rw [if_neg (h q (List.mem_cons_self q rest))]
      exact ih m mat fun r hr => by
        simp only [primDist]
        exact h r (List.mem_cons_of_mem q hr)

lemma sceneGo_append (p : Vec3) (all : List Prim) :
    ∀ (l1 l2 : List Prim) (m : EReal) (mat : Option Material),
      sceneGo p all (l1 ++ l2) m mat =
        sceneGo p all l2 (sceneGo p all l1 m mat).1 (sceneGo p all l1 m mat).2 := by
  intro l1
  induction l1 with
  | nil => intro l2 m mat; rfl
  | cons q rest ih =>
      intro l2 m mat
      simp only [List.cons_append, sceneGo]
      by_cases h : (evaluate_primitive p q all).1 < m
      · rw [if_pos h, if_pos h]; exact ih l2 _ _
      · rw [if_neg h, if_neg h]; exact ih l2 _ _

lemma foldr_min_le {l : List EReal} {a : EReal} (ha : a ∈ l) :
    l.foldr min ⊤ ≤ a := by
  induction l with
  | nil => exact absurd ha (List.not_mem_nil a)
  | cons b rest ih =>
      rcases List.mem_cons.mp ha with rfl | ha
      · exact min_le_left _ _
      · exact (min_le_right _ _).trans (ih ha)

lemma lt_foldr_min {l : List EReal} {c : EReal} (hc : c < ⊤)
    (h : ∀ a ∈ l, c < a) : c < l.foldr min ⊤ := by
  induction l with
  | nil => exact hc
  | cons b rest ih =>
      exact lt_min (h b (List.mem_cons_self b rest))
        (ih fun a ha => h a (List.mem_cons_of_mem b ha))

lemma foldr_min_perm {l1 l2 : List EReal} (h : l1.Perm l2) :
    l1.foldr min ⊤ = l2.foldr min ⊤ := by
  induction h with
  | nil => rfl
  | cons x _ ih => simp only [List.foldr_cons, ih]
  | swap x y l => simp only [List.foldr_cons, min_left_comm]
  | trans _ _ ih1 ih2 => exact ih1.trans ih2

lemma Vec3_sub_def (a b : Vec3) : a - b = ⟨a.x - b.x, a.y - b.y, a.z - b.z⟩ := rfl

lemma norm3_zero : norm3 ⟨0, 0, 0⟩ = 0 := by
  simp [norm3]

lemma eval_sphereUnit (L : List Prim) :
    evaluate_primitive ⟨0, 0, 0⟩ sphereUnit L = (((-1 : ℝ) : EReal), {}) := by
  simp only [evaluate_primitive, sphereUnit, Vec3_sub_def, sdf_sphere]
  norm_num [norm3_zero]

lemma eval_sphereTwo (L : List Prim) :
    evaluate_primitive ⟨0, 0, 0⟩ sphereTwo L = (((-2 : ℝ) : EReal), {}) := by
  simp only [evaluate_primitive, sphereTwo, Vec3_sub_def, sdf_sphere]
  norm_num [norm3_zero]

lemma eval_sphereA (L : List Prim) :
    evaluate_primitive ⟨0, 0, 0⟩ sphereA L =
      (((-0.5 : ℝ) : EReal), { albedo := some ⟨1, 0, 0⟩ }) := by
  simp only [evaluate_primitive, sphereA, Vec3_sub_def, sdf_sphere]
  norm_num [norm3_zero]

lemma eval_sphereB (L : List Prim) :
    evaluate_primitive ⟨0, 0, 0⟩ sphereB L =
      (((-0.5 : ℝ) : EReal), { albedo := some ⟨0, 1, 0⟩ }) := by
  simp only [evaluate_primitive, sphereB, Vec3_sub_def, sdf_sphere]
  norm_num [norm3_zero]

lemma eval_widgetA (L : List Prim) :
    evaluate_primitive ⟨0, 0, 0⟩ widgetA L =
      ((⊤ : EReal), { albedo := some ⟨1, 0, 0⟩ }) := by
  simp [evaluate_primitive, widgetA]

lemma eval_widgetB (L : List Prim) :
    evaluate_primitive ⟨0, 0, 0⟩ widgetB L = ((⊤ : EReal), {}) := by
  simp [evaluate_primitive, widgetB]

lemma sceneGo_map_csg (p : Vec3) (L1 L2 : List Prim)
    (f : Prim → Option CsgOp) :
    ∀ (l : List Prim) (m : EReal) (mat : Option Material),
      sceneGo p L1 (l.map fun q => { q with csgOperation := f q }) m mat
        = sceneGo p L2 l m mat := by
  intro l
  induction l with
  | nil => intro m mat; rfl
  | cons q rest ih =>
      intro m mat
      simp only [List.map_cons, sceneGo]
      have he : evaluate_primitive p { q with csgOperation := f q } L1
          = evaluate_primitive p q L2 := rfl
      rw [he]
      by_cases h : (evaluate_primitive p q L2).1 < m
      · rw [if_pos h, if_pos h, ih]
      · rw [if_neg h, if_neg h, ih]

/-! ## Claim C2 -/

/-- C2 counterexample: the scene evaluator does not apply a primitive
declared CSG operator. In the concrete two-sphere scene the second primitive
declares subtraction, whose prescribed composite max(d1, -d2) is 2, yet the
evaluator returns min(d1, d2) = -2. -/
theorem scene_sdf_declared_ops_cex :
    (evaluate_primitive ⟨0, 0, 0⟩ sphereUnit [sphereUnit, sphereTwo]).1
        = ((-1 : ℝ) : EReal) ∧
    (evaluate_primitive ⟨0, 0, 0⟩ sphereTwo [sphereUnit, sphereTwo]).1
        = ((-2 : ℝ) : EReal) ∧
    sphereTwo.csgOperation = some ⟨CsgKind.subtraction, 0⟩ ∧
    (scene_sdf ⟨0, 0, 0⟩ [sphereUnit, sphereTwo]).1 = ((-2 : ℝ) : EReal) ∧
    ((max (-1 : ℝ) (-(-2 : ℝ)) : ℝ) : EReal) = ((2 : ℝ) : EReal) ∧
    (scene_sdf ⟨0, 0, 0⟩ [sphereUnit, sphereTwo]).1
        ≠ ((max (-1 : ℝ) (-(-2 : ℝ)) : ℝ) : EReal) := by
  have h1 := eval_sphereUnit [sphereUnit, sphereTwo]
  have h2 := eval_sphereTwo [sphereUnit, sphereTwo]
  have hs : (scene_sdf ⟨0, 0, 0⟩ [sphereUnit, sphereTwo]).1
      = ((-2 : ℝ) : EReal) := by
    simp only [scene_sdf, sceneGo, h1, h2]
    rw [if_pos (EReal.coe_lt_top (-1)),
      if_pos (EReal.coe_lt_coe_iff.mpr (by norm_num))]
  have hmax : (max (-1 : ℝ) (-(-2 : ℝ))) = 2 := by norm_num
  refine ⟨by rw [h1], by rw [h2], rfl, hs, by rw [hmax], ?_⟩
  rw [hs, hmax]
  exact fun hco => absurd (EReal.coe_eq_coe_iff.mp hco) (by norm_num)

/-- C2 amended: the scene evaluator folds every primitive with the hard
union (min-reduction with strict improvement) regardless of the declared CSG
operator — the csgOperation tag is never read, so rewriting it arbitrarily
leaves the result unchanged, and the composite distance is the plain minimum
of the individual distances. -/
theorem scene_sdf_hard_union_ignores_csg (p : Vec3) (prims : List Prim)
    (f : Prim → Option CsgOp) :
    (scene_sdf p prims).1 = (prims.map (primDist p prims)).foldr min ⊤ ∧
    scene_sdf p (prims.map fun q => { q with csgOperation := f q })
      = scene_sdf p prims := by
  constructor
  · rw [scene_sdf, sceneGo_fst, min_eq_right le_top]
  · exact sceneGo_map_csg p _ prims f prims ⊤ none

/-! ## Claim C7 -/

/-- C7: the composite distance of the scene evaluator equals the minimum of
the individual primitive distances, and it is invariant under any
permutation of the primitive list. -/
theorem scene_sdf_min_reduction_perm (p : Vec3) (l1 l2 : List Prim) :
    (scene_sdf p l1).1 = (l1.map (primDist p l1)).foldr min ⊤ ∧
    (l1.Perm l2 → (scene_sdf p l1).1 = (scene_sdf p l2).1) := by
  constructor
  · rw [scene_sdf, sceneGo_fst, min_eq_right le_top]
  · intro hperm
    rw [scene_sdf, sceneGo_fst, min_eq_right le_top,
      scene_sdf, sceneGo_fst, min_eq_right le_top]
    have hfun : primDist p l2 = primDist p l1 := rfl
    rw [hfun]
    exact foldr_min_perm (hperm.map (primDist p l1))

/-- Witness for C7 on a concrete two-primitive scene and its swap. -/
theorem scene_sdf_min_reduction_perm_witness :
    ([sphereUnit, sphereTwo].Perm [sphereTwo, sphereUnit]) ∧
    (scene_sdf ⟨0, 0, 0⟩ [sphereUnit, sphereTwo]).1
      = (scene_sdf ⟨0, 0, 0⟩ [sphereTwo, sphereUnit]).1 :=
  ⟨List.Perm.swap sphereTwo sphereUnit [],
   (scene_sdf_min_reduction_perm ⟨0, 0, 0⟩ [sphereUnit, sphereTwo]
      [sphereTwo, sphereUnit]).2 (List.Perm.swap sphereTwo sphereUnit [])⟩

/-! ## Claim C8 -/

/-- C8 counterexample: two primitives of unrecognized type both evaluate to
the same minimal distance +infinity, yet the evaluator returns material None
rather than the material of the first primitive in the list. -/
theorem scene_sdf_tie_material_cex :
    (evaluate_primitive ⟨0, 0, 0⟩ widgetA [widgetA, widgetB]).1 = (⊤ : EReal) ∧
    (evaluate_primitive ⟨0, 0, 0⟩ widgetB [widgetA, widgetB]).1 = (⊤ : EReal) ∧
    (scene_sdf ⟨0, 0, 0⟩ [widgetA, widgetB]).2 = none ∧
    (none : Option Material)
      ≠ some (evaluate_primitive ⟨0, 0, 0⟩ widgetA [widgetA, widgetB]).2 := by
  have h1 := eval_widgetA [widgetA, widgetB]
  have h2 := eval_widgetB [widgetA, widgetB]
  have hs : (scene_sdf ⟨0, 0, 0⟩ [widgetA, widgetB]).2 = none := by
    simp only [scene_sdf, sceneGo, h1, h2]
    rw [if_neg (lt_irrefl (⊤ : EReal)), if_neg (lt_irrefl (⊤ : EReal))]
  exact ⟨by rw [h1], by rw [h2], hs, fun hcontra => Option.noConfusion hcontra⟩

/-- C8 amended: when the minimal distance over the primitive list is
attained by a primitive evaluating to a finite (non-infinity) distance, the
material returned is that of the earliest primitive attaining the minimum;
with an all-infinite scene the evaluator instead returns material None (see
the counterexample). -/
theorem scene_sdf_tie_first_material (p : Vec3) (l1 : List Prim) (q : Prim)
    (l2 : List Prim)
    (hfin : primDist p (l1 ++ q :: l2) q ≠ ⊤)
    (hmin : ∀ r ∈ l1 ++ q :: l2,
      primDist p (l1 ++ q :: l2) q ≤ primDist p (l1 ++ q :: l2) r)
    (hfirst : ∀ r ∈ l1,
      primDist p (l1 ++ q :: l2) r ≠ primDist p (l1 ++ q :: l2) q) :
    (scene_sdf p (l1 ++ q :: l2)).2
      = some (evaluate_primitive p q (l1 ++ q :: l2)).2 := by
  set L := l1 ++ q :: l2 with hL
  set M := primDist p L q with hM
  have htop : M < ⊤ := lt_top_iff_ne_top.mpr hfin
  have hstep : (sceneGo p L l1 ⊤ none).1 = (l1.map (primDist p L)).foldr min ⊤ := by
    rw [sceneGo_fst, min_eq_right le_top]
  have hMlt : M < (sceneGo p L l1 ⊤ none).1 := by
    rw [hstep]
    refine lt_foldr_min htop ?_
    intro a ha
    rcases List.mem_map.mp ha with ⟨r, hr, rfl⟩
    exact lt_of_le_of_ne (hmin r (List.mem_append_left _ hr))
      (Ne.symm (hfirst r hr))
  have hq : (evaluate_primitive p q L).1 = M := rfl
  rw [scene_sdf, hL]
  rw [← hL]
  rw [show L = l1 ++ q :: l2 from hL]
  rw [sceneGo_append]
  rw [← hL]
  simp only [sceneGo]
  rw [hq, if_pos hMlt]
  rw [sceneGo_no_improve p L l2 M (some (evaluate_primitive p q L).2)
    (fun r hr => not_lt.mpr (hmin r (List.mem_append_right _
      (List.mem_cons_of_mem q hr))))]

/-- Witness for C8 on a concrete exact tie: two unit spheres at the same
position; the material of the first is returned. -/
theorem scene_sdf_tie_first_material_witness :
    (primDist ⟨0, 0, 0⟩ ([] ++ sphereA :: [sphereB]) sphereA ≠ ⊤) ∧
    (∀ r ∈ ([] ++ sphereA :: [sphereB]),
      primDist ⟨0, 0, 0⟩ ([] ++ sphereA :: [sphereB]) sphereA
        ≤ primDist ⟨0, 0, 0⟩ ([] ++ sphereA :: [sphereB]) r) ∧
    (scene_sdf ⟨0, 0, 0⟩ ([] ++ sphereA :: [sphereB])).2
      = some (evaluate_primitive ⟨0, 0, 0⟩ sphereA ([] ++ sphereA :: [sphereB])).2 := by
  have hA : primDist ⟨0, 0, 0⟩ ([] ++ sphereA :: [sphereB]) sphereA
      = ((-0.5 : ℝ) : EReal) := by
    rw [primDist, eval_sphereA]
  have hB : primDist ⟨0, 0, 0⟩ ([] ++ sphereA :: [sphereB]) sphereB
      = ((-0.5 : ℝ) : EReal) := by
    rw [primDist, eval_sphereB]
  have hfin : primDist ⟨0, 0, 0⟩ ([] ++ sphereA :: [sphereB]) sphereA ≠ ⊤ := by
    rw [hA]; exact EReal.coe_ne_top _
  have hmin : ∀ r ∈ ([] ++ sphereA :: [sphereB]),
      primDist ⟨0, 0, 0⟩ ([] ++ sphereA :: [sphereB]) sphereA
        ≤ primDist ⟨0, 0, 0⟩ ([] ++ sphereA :: [sphereB]) r := by
    intro r hr
    rcases List.mem_cons.mp hr with rfl | hr
    · exact le_refl _
    · rcases List.mem_cons.mp hr with rfl | hr
      · rw [hA, hB]
      · exact absurd hr (List.not_mem_nil r)
  exact ⟨hfin, hmin,
    scene_sdf_tie_first_material ⟨0, 0, 0⟩ [] sphereA [sphereB] hfin hmin
      (fun r hr => absurd hr (List.not_mem_nil r))⟩

lemma raymarchCountAux_le (o dir : Vec3) (prims : List Prim) (max_dist : ℝ) :
    ∀ (fuel : ℕ) (t : ℝ), raymarchCountAux o dir prims max_dist fuel t ≤ fuel := by
  intro fuel
  induction fuel with
  | zero => intro t; exact le_refl 0
  | succ n ih =>
      intro t
      simp only [raymarchCountAux]
      by_cases h1 : (scene_sdf (stepPoint o dir t) prims).1 < ((0.001 : ℝ) : EReal)
      · rw [if_pos h1]; omega
      · rw [if_neg h1]
        by_cases h2 : ((t : ℝ) : EReal) + (scene_sdf (stepPoint o dir t) prims).1
            > ((max_dist : ℝ) : EReal)
        · rw [if_pos h2]; omega
        · rw [if_neg h2]
          have := ih (t + ((scene_sdf (stepPoint o dir t) prims).1).toReal)
          omega

lemma raymarchAux_hit (o dir : Vec3) (prims : List Prim) :
    ∀ (fuel k : ℕ) (t : ℝ) (m : Option Material) (p : Vec3),
      raymarchAux o dir prims 20 fuel (marchT o dir prims k) = some (t, m, p) →
      ∃ j, k ≤ j ∧ j < k + fuel ∧
        stepDist o dir prims (marchT o dir prims j) < ((0.001 : ℝ) : EReal) ∧
        t = marchT o dir prims j ∧
        p = stepPoint o dir (marchT o dir prims j) ∧
        ∀ i, k ≤ i → i < j →
          ¬ stepDist o dir prims (marchT o dir prims i) < ((0.001 : ℝ) : EReal) := by
  intro fuel
  induction fuel with
  | zero =>
      intro k t m p h
      exact absurd h (by simp [raymarchAux])
  | succ n ih =>
      intro k t m p h
      simp only [raymarchAux] at h
      by_cases h1 : (scene_sdf (stepPoint o dir (marchT o dir prims k)) prims).1
          < ((0.001 : ℝ) : EReal)
      · rw [if_pos h1] at h
        simp only [Option.some.injEq, Prod.mk.injEq] at h
        refine ⟨k, le_refl k, by omega, h1, h.1.symm, h.2.2.symm, ?_⟩
        intro i hki hik
        omega
      · rw [if_neg h1] at h
        by_cases h2 : ((marchT o dir prims k : ℝ) : EReal)
            + (scene_sdf (stepPoint o dir (marchT o dir prims k)) prims).1
            > ((20 : ℝ) : EReal)
        · rw [if_pos h2] at h
          exact absurd h (by simp)
        · rw [if_neg h2] at h
          have hrec : raymarchAux o dir prims 20 n (marchT o dir prims (k + 1))
              = some (t, m, p) := h
          rcases ih (k + 1) t m p hrec with
            ⟨j, hkj, hjlt, hhit, ht, hp, hpre⟩
          refine ⟨j, by omega, by omega, hhit, ht, hp, ?_⟩
          intro i hki hij
          rcases Nat.eq_or_lt_of_le hki with rfl | hlt
          · exact h1
          · exact hpre i hlt hij

lemma raymarchAux_miss (o dir : Vec3) (prims : List Prim) :
    ∀ (fuel k : ℕ),
      raymarchAux o dir prims 20 fuel (marchT o dir prims k) = none →
      (∃ j, k ≤ j ∧ j < k + fuel ∧
        ¬ stepDist o dir prims (marchT o dir prims j) < ((0.001 : ℝ) : EReal) ∧
        ((marchT o dir prims j : ℝ) : EReal)
          + stepDist o dir prims (marchT o dir prims j) > ((20 : ℝ) : EReal)) ∨
      (∀ i, k ≤ i → i < k + fuel →
        ¬ stepDist o dir prims (marchT o dir prims i) < ((0.001 : ℝ) : EReal)) := by
  intro fuel
  induction fuel with
  | zero =>
      intro k _
      right
      intro i hki hik
      omega
  | succ n ih =>
      intro k h
      simp only [raymarchAux] at h
      by_cases h1 : (scene_sdf (stepPoint o dir (marchT o dir prims k)) prims).1
          < ((0.001 : ℝ) : EReal)
      · rw [if_pos h1] at h
        exact absurd h (by simp)
      · rw [if_neg h1] at h
        by_cases h2 : ((marchT o dir prims k : ℝ) : EReal)
            + (scene_sdf (stepPoint o dir (marchT o dir prims k)) prims).1
            > ((20 : ℝ) : EReal)
        · exact Or.inl ⟨k, le_refl k, by omega, h1, h2⟩
        · rw [if_neg h2] at h
          have hrec : raymarchAux o dir prims 20 n (marchT o dir prims (k + 1))
              = none := h
          rcases ih (k + 1) hrec with ⟨j, hkj, hjlt, hnh, hbr⟩ | hall
          · exact Or.inl ⟨j, by omega, by omega, hnh, hbr⟩
          · right
            intro i hki hik
            rcases Nat.eq_or_lt_of_le hki with rfl | hlt
            · exact h1
            · exact hall i hlt (by omega)

/-! ## Claim C3 -/

/-- C3: the raymarcher terminates with exactly one of two outcomes — a hit,
returned the first time the sampled scene distance falls below the epsilon
threshold 0.001, or a miss, returned when the accumulated travel exceeds the
maximum distance 20.0 or the fixed budget of 64 iterations is exhausted
without the distance falling below epsilon — and performs at most 64 scene
evaluations per ray. -/
theorem raymarch_budget_and_outcomes (o dir : Vec3) (prims : List Prim) :
    raymarchEvals o dir prims ≤ 64 ∧
    (∀ t m p, raymarch o dir prims = some (t, m, p) →
      ∃ j, j < 64 ∧
        stepDist o dir prims (marchT o dir prims j) < ((0.001 : ℝ) : EReal) ∧
        t = marchT o dir prims j ∧
        p = stepPoint o dir (marchT o dir prims j) ∧
        ∀ i, i < j →
          ¬ stepDist o dir prims (marchT o dir prims i) < ((0.001 : ℝ) : EReal)) ∧
    (raymarch o dir prims = none →
      (∃ j, j < 64 ∧
        ¬ stepDist o dir prims (marchT o dir prims j) < ((0.001 : ℝ) : EReal) ∧
        ((marchT o dir prims j : ℝ) : EReal)
          + stepDist o dir prims (marchT o dir prims j) > ((20 : ℝ) : EReal)) ∨
      (∀ i, i < 64 →
        ¬ stepDist o dir prims (marchT o dir prims i) < ((0.001 : ℝ) : EReal))) := by
  refine ⟨raymarchCountAux_le o dir prims 20 64 0, ?_, ?_⟩
  · intro t m p h
    have h0 : raymarchAux o dir prims 20 64 (marchT o dir prims 0)
        = some (t, m, p) := h
    rcases raymarchAux_hit o dir prims 64 0 t m p h0 with
      ⟨j, _, hjlt, hhit, ht, hp, hpre⟩
    exact ⟨j, by omega, hhit, ht, hp, fun i hij => hpre i (Nat.zero_le i) hij⟩
  · intro h
    have h0 : raymarchAux o dir prims 20 64 (marchT o dir prims 0) = none := h
    rcases raymarchAux_miss o dir prims 64 0 h0 with ⟨j, _, hjlt, hnh, hbr⟩ | hall
    · exact Or.inl ⟨j, by omega, hnh, hbr⟩
    · exact Or.inr fun i hik => hall i (Nat.zero_le i) (by omega)

lemma raymarchAux_nil (o dir : Vec3) (md : ℝ) (fuel : ℕ) (t : ℝ) :
    raymarchAux o dir [] md (fuel + 1) t = none := by
  simp only [raymarchAux, scene_sdf, sceneGo]
  rw [if_neg not_top_lt,
    if_pos (by rw [EReal.coe_add_top]; exact EReal.coe_lt_top md)]

/-- Witness for C3: on the empty scene the raymarcher returns a miss, and
the miss characterization holds for it. -/
theorem raymarch_budget_and_outcomes_witness :
    (raymarch ⟨0, 0, 0⟩ ⟨0, 0, 1⟩ [] = none) ∧
    ((∃ j, j < 64 ∧
        ¬ stepDist ⟨0, 0, 0⟩ ⟨0, 0, 1⟩ [] (marchT ⟨0, 0, 0⟩ ⟨0, 0, 1⟩ [] j)
          < ((0.001 : ℝ) : EReal) ∧
        ((marchT ⟨0, 0, 0⟩ ⟨0, 0, 1⟩ [] j : ℝ) : EReal)
          + stepDist ⟨0, 0, 0⟩ ⟨0, 0, 1⟩ [] (marchT ⟨0, 0, 0⟩ ⟨0, 0, 1⟩ [] j)
          > ((20 : ℝ) : EReal)) ∨
      (∀ i, i < 64 →
        ¬ stepDist ⟨0, 0, 0⟩ ⟨0, 0, 1⟩ [] (marchT ⟨0, 0, 0⟩ ⟨0, 0, 1⟩ [] i)
          < ((0.001 : ℝ) : EReal))) := by
  have h0 : raymarch ⟨0, 0, 0⟩ ⟨0, 0, 1⟩ [] = none := by
    show raymarchAux ⟨0, 0, 0⟩ ⟨0, 0, 1⟩ [] 20 64 0 = none
    exact raymarchAux_nil ⟨0, 0, 0⟩ ⟨0, 0, 1⟩ 20 63 0
  exact ⟨h0, (raymarch_budget_and_outcomes ⟨0, 0, 0⟩ ⟨0, 0, 1⟩ []).2.2 h0⟩

/-! ## Claim C4 -/

/-- C4 counterexample: rendering an asset whose primitive list is empty
yields no image at all — render_asset returns None — so it does not produce
an image of the requested dimensions with every pixel at alpha 0. -/
theorem render_asset_empty_cex :
    emptyAsset.sdfModel.primitives = [] ∧
    ¬ ∃ img, render_asset emptyAsset 1 1 = some img := by
  refine ⟨rfl, ?_⟩
  rintro ⟨img, himg⟩
  rw [show render_asset emptyAsset 1 1 = none from rfl] at himg
  exact Option.noConfusion himg

/-- C4 amended: rendering an asset with an empty primitive list produces no
image: render_asset returns None (the tool reports the missing primitives
and fails), rather than an image in which every pixel has alpha 0. -/
theorem render_asset_empty_returns_none (asset : Asset) (width height : ℕ)
    (h : asset.sdfModel.primitives = []) :
    render_asset asset width height = none := by
  simp only [render_asset, h]
  rfl

/-- Witness for C4 amended at a concrete empty asset and 2 x 2 size. -/
theorem render_asset_empty_returns_none_witness :
    emptyAsset.sdfModel.primitives = [] ∧ render_asset emptyAsset 2 2 = none :=
  ⟨rfl, render_asset_empty_returns_none emptyAsset 2 2 rfl⟩

/-- C5 counterexample: at the degenerate input p = 0 (k1 = 0, under the
guard threshold) the ellipsoid distance is the constant -1.0 — a negative
inside sentinel, not a large positive far distance. -/
theorem sdf_ellipsoid_degenerate_cex :
    norm3 ((⟨0, 0, 0⟩ : Vec3) / ((⟨1, 1, 1⟩ : Vec3) * ⟨1, 1, 1⟩)) ≤ 1e-10 ∧
    sdf_ellipsoid ⟨0, 0, 0⟩ ⟨1, 1, 1⟩ = -1 ∧
    ¬ (0 : ℝ) < sdf_ellipsoid ⟨0, 0, 0⟩ ⟨1, 1, 1⟩ := by
  have hnorm : norm3 ((⟨0, 0, 0⟩ : Vec3) / ((⟨1, 1, 1⟩ : Vec3) * ⟨1, 1, 1⟩))
      = 0 := by
    rw [Vec3_mulV_def, Vec3_divV_def]
    norm_num [norm3]
  have hval : sdf_ellipsoid ⟨0, 0, 0⟩ ⟨1, 1, 1⟩ = -1 := by
    simp only [sdf_ellipsoid]
    rw [if_neg]
    rw [hnorm]
    norm_num
  refine ⟨by rw [hnorm]; norm_num, hval, by rw [hval]; norm_num⟩

/-- C5 amended: when the ellipsoid denominator k1 is not above the 1e-10
guard threshold, the distance function skips the division and returns the
constant -1.0 — a defined finite fallback (and thus no NaN), though it is a
negative inside value, not the large positive far sentinel of the claim. -/
theorem sdf_ellipsoid_degenerate_returns_neg_one (p radii : Vec3)
    (h : ¬ norm3 (p / (radii * radii)) > 1e-10) :
    sdf_ellipsoid p radii = -1 := by
  simp only [sdf_ellipsoid]
  rw [if_neg h]

/-- Witness for C5 amended at p = 0, radii = (1,1,1). -/
theorem sdf_ellipsoid_degenerate_returns_neg_one_witness :
    ¬ norm3 ((⟨0, 0, 0⟩ : Vec3) / ((⟨1, 1, 1⟩ : Vec3) * ⟨1, 1, 1⟩)) > 1e-10 ∧
    sdf_ellipsoid ⟨0, 0, 0⟩ ⟨1, 1, 1⟩ = -1 := by
  have hnorm : norm3 ((⟨0, 0, 0⟩ : Vec3) / ((⟨1, 1, 1⟩ : Vec3) * ⟨1, 1, 1⟩))
      = 0 := by
    rw [Vec3_mulV_def, Vec3_divV_def]
    norm_num [norm3]
  have hng : ¬ norm3 ((⟨0, 0, 0⟩ : Vec3) / ((⟨1, 1, 1⟩ : Vec3) * ⟨1, 1, 1⟩))
      > 1e-10 := by
    rw [hnorm]; norm_num
  exact ⟨hng, sdf_ellipsoid_degenerate_returns_neg_one ⟨0, 0, 0⟩ ⟨1, 1, 1⟩ hng⟩

/-- C10: two asset descriptions that differ only in the camera fov field
render pixel-for-pixel identically — render_asset never reads fov, and
render_pixel uses the fixed 35 degree field of view. -/
theorem render_asset_fov_independent (asset : Asset) (f1 f2 : Option ℝ)
    (width height : ℕ) :
    render_asset (setFov asset f1) width height
      = render_asset (setFov asset f2) width height := rfl

/-- C9: for every hit pixel, the rendered color is the spec's shading
formula — albedo * (0.3 + 0.7 * max(0, dot(normal, -lightDir))) + emissive *
emissiveStrength, clamped per channel to [0,1] before 8-bit quantization,
with alpha 255. -/
theorem render_pixel_hit_shading (x y width height : ℕ)
    (camera_pos camera_target : Vec3) (prims : List Prim) (light_dir : Vec3)
    (t : ℝ) (material : Option Material) (hit_point : Vec3)
    (h : raymarch camera_pos
      (pixelRayDir x y width height camera_pos camera_target) prims
      = some (t, material, hit_point)) :
    render_pixel x y width height camera_pos camera_target prims light_dir
      = shadeSpec ((material.getD {}).albedo.getD ⟨0.7, 0.7, 0.7⟩)
        ((material.getD {}).emissive.getD ⟨0, 0, 0⟩)
        ((material.getD {}).emissiveStrength.getD 0)
        (calculate_normal hit_point prims) light_dir := by
  unfold render_pixel
  rw [h]
  rfl

lemma Vec3_zero_smul (v : Vec3) : (0 : ℝ) • v = (⟨0, 0, 0⟩ : Vec3) := by
  rw [Vec3_smul_def]
  norm_num

lemma norm3_eval {x y z r : ℝ} (hr : 0 ≤ r) (h : x * x + y * y + z * z = r * r) :
    norm3 ⟨x, y, z⟩ = r := by
  show Real.sqrt (x * x + y * y + z * z) = r
  rw [h]
  exact Real.sqrt_mul_self hr

lemma normalize_eval {v : Vec3} {r : ℝ} (hr : norm3 v = r)
    (hbig : ¬ r < 1e-10) :
    normalize v = ⟨v.x / r, v.y / r, v.z / r⟩ := by
  rw [normalize, hr, if_neg hbig]
  rfl

lemma raymarchAux_step_hit {o dir : Vec3} {prims : List Prim} {md t : ℝ}
    {d : EReal} {mat : Option Material} (fuel : ℕ)
    (hsc : scene_sdf (stepPoint o dir t) prims = (d, mat))
    (h1 : d < ((0.001 : ℝ) : EReal)) :
    raymarchAux o dir prims md (fuel + 1) t
      = some (t, mat, stepPoint o dir t) := by
  simp only [raymarchAux, hsc]
  rw [if_pos h1]

lemma raymarchAux_step_continue {o dir : Vec3} {prims : List Prim} {md t : ℝ}
    {d : EReal} {mat : Option Material} (fuel : ℕ)
    (hsc : scene_sdf (stepPoint o dir t) prims = (d, mat))
    (h1 : ¬ d < ((0.001 : ℝ) : EReal))
    (h2 : ¬ ((t : ℝ) : EReal) + d > ((md : ℝ) : EReal)) :
    raymarchAux o dir prims md (fuel + 1) t
      = raymarchAux o dir prims md fuel (t + d.toReal) := by
  simp only [raymarchAux, hsc]
  rw [if_neg h1, if_neg h2]

lemma eval_sphereA_far (L : List Prim) :
    evaluate_primitive ⟨0, 0, 2⟩ sphereA L
      = (((1.5 : ℝ) : EReal), { albedo := some ⟨1, 0, 0⟩ }) := by
  have hv : ((⟨0, 0, 2⟩ : Vec3) - ⟨0, 0, 0⟩) = (⟨0, 0, 2⟩ : Vec3) := by
    rw [Vec3_sub_def]; norm_num
  have hn : norm3 ⟨0, 0, 2⟩ = 2 := norm3_eval (by norm_num) (by norm_num)
  simp only [evaluate_primitive, sphereA, sdf_sphere]
  rw [hv, hn]
  norm_num [Prod.ext_iff, EReal.coe_eq_coe_iff]

lemma eval_sphereA_hit (L : List Prim) :
    evaluate_primitive ⟨0, 0, 0.5⟩ sphereA L
      = (((0 : ℝ) : EReal), { albedo := some ⟨1, 0, 0⟩ }) := by
  have hv : ((⟨0, 0, 0.5⟩ : Vec3) - ⟨0, 0, 0⟩) = (⟨0, 0, 0.5⟩ : Vec3) := by
    rw [Vec3_sub_def]; norm_num
  have hn : norm3 ⟨0, 0, 0.5⟩ = 0.5 := norm3_eval (by norm_num) (by norm_num)
  simp only [evaluate_primitive, sphereA, sdf_sphere]
  rw [hv, hn]
  norm_num [Prod.ext_iff, EReal.coe_eq_coe_iff]

lemma scene_sphereA_far :
    scene_sdf ⟨0, 0, 2⟩ [sphereA]
      = (((1.5 : ℝ) : EReal), some { albedo := some ⟨1, 0, 0⟩ }) := by
  simp only [scene_sdf, sceneGo, eval_sphereA_far]
  rw [if_pos (EReal.coe_lt_top 1.5)]

lemma scene_sphereA_hit :
    scene_sdf ⟨0, 0, 0.5⟩ [sphereA]
      = (((0 : ℝ) : EReal), some { albedo := some ⟨1, 0, 0⟩ }) := by
  simp only [scene_sdf, sceneGo, eval_sphereA_hit]
  rw [if_pos (EReal.coe_lt_top 0)]

lemma pixelRayDir_center :
    pixelRayDir 1 1 2 2 ⟨0, 0, 2⟩ ⟨0, 0, 0⟩ = ⟨0, 0, -1⟩ := by
  have hv : ((⟨0, 0, 0⟩ : Vec3) - ⟨0, 0, 2⟩) = (⟨0, 0, -2⟩ : Vec3) := by
    rw [Vec3_sub_def]; norm_num
  have hn2 : norm3 ⟨0, 0, -2⟩ = 2 := norm3_eval (by norm_num) (by norm_num)
  have hfw : normalize ((⟨0, 0, 0⟩ : Vec3) - ⟨0, 0, 2⟩) = ⟨0, 0, -1⟩ := by
    rw [hv, normalize_eval hn2 (by norm_num)]
    norm_num
  have hcr1 : cross3 ⟨0, 0, -1⟩ ⟨0, 1, 0⟩ = (⟨1, 0, 0⟩ : Vec3) := by
    simp only [cross3]
    norm_num
  have hn1 : norm3 ⟨1, 0, 0⟩ = 1 := norm3_eval (by norm_num) (by norm_num)
  have hrgt : normalize (⟨1, 0, 0⟩ : Vec3) = ⟨1, 0, 0⟩ := by
    rw [normalize_eval hn1 (by norm_num)]
    norm_num
  have hcr2 : cross3 ⟨1, 0, 0⟩ ⟨0, 0, -1⟩ = (⟨0, 1, 0⟩ : Vec3) := by
    simp only [cross3]
    norm_num
  have hnu : norm3 ⟨0, 1, 0⟩ = 1 := norm3_eval (by norm_num) (by norm_num)
  have hupn : normalize (⟨0, 1, 0⟩ : Vec3) = ⟨0, 1, 0⟩ := by
    rw [normalize_eval hnu (by norm_num)]
    norm_num
  have hx : ((2 * ((1 : ℕ) : ℝ) / ((2 : ℕ) : ℝ) - 1)
      * (((2 : ℕ) : ℝ) / ((2 : ℕ) : ℝ))) = 0 := by
    push_cast
    norm_num
  have hy : (-(2 * ((1 : ℕ) : ℝ) / ((2 : ℕ) : ℝ) - 1)) = 0 := by
    push_cast
    norm_num
  have hnm1 : norm3 ⟨0, 0, -1⟩ = 1 := norm3_eval (by norm_num) (by norm_num)
  simp only [pixelRayDir]
  rw [hfw, hcr1, hrgt, hcr2, hupn, hx, hy, zero_mul,
    Vec3_zero_smul, Vec3_zero_smul]
  have hsum : (⟨0, 0, -1⟩ : Vec3) + ⟨0, 0, 0⟩ + ⟨0, 0, 0⟩
      = (⟨0, 0, -1⟩ : Vec3) := by
    rw [Vec3_add_def, Vec3_add_def]
    norm_num
  rw [hsum, normalize_eval hnm1 (by norm_num)]
  norm_num

lemma raymarch_sphereA :
    raymarch ⟨0, 0, 2⟩ ⟨0, 0, -1⟩ [sphereA]
      = some (1.5, some { albedo := some ⟨1, 0, 0⟩ }, ⟨0, 0, 0.5⟩) := by
  have hsp0 : stepPoint ⟨0, 0, 2⟩ ⟨0, 0, -1⟩ 0 = ⟨0, 0, 2⟩ := by
    simp only [stepPoint, Vec3_smul_def, Vec3_add_def]
    norm_num
  have hsp15 : stepPoint ⟨0, 0, 2⟩ ⟨0, 0, -1⟩ 1.5 = ⟨0, 0, 0.5⟩ := by
    simp only [stepPoint, Vec3_smul_def, Vec3_add_def]
    norm_num
  have hsc1 : scene_sdf (stepPoint ⟨0, 0, 2⟩ ⟨0, 0, -1⟩ 0) [sphereA]
      = (((1.5 : ℝ) : EReal), some { albedo := some ⟨1, 0, 0⟩ }) := by
    rw [hsp0]
    exact scene_sphereA_far
  have hsc2 : scene_sdf (stepPoint ⟨0, 0, 2⟩ ⟨0, 0, -1⟩ 1.5) [sphereA]
      = (((0 : ℝ) : EReal), some { albedo := some ⟨1, 0, 0⟩ }) := by
    rw [hsp15]
    exact scene_sphereA_hit
  have h1 : ¬ ((1.5 : ℝ) : EReal) < ((0.001 : ℝ) : EReal) :=
    fun hc => absurd (EReal.coe_lt_coe_iff.mp hc) (by norm_num)
  have h2 : ¬ ((0 : ℝ) : EReal) + ((1.5 : ℝ) : EReal) > ((20 : ℝ) : EReal) := by
    rw [← EReal.coe_add]
    exact fun hc => absurd (EReal.coe_lt_coe_iff.mp hc) (by norm_num)
  have hlt : ((0 : ℝ) : EReal) < ((0.001 : ℝ) : EReal) :=
    EReal.coe_lt_coe_iff.mpr (by norm_num)
  show raymarchAux ⟨0, 0, 2⟩ ⟨0, 0, -1⟩ [sphereA] 20 64 0 = _
  rw [show (64 : ℕ) = 63 + 1 from rfl,
    raymarchAux_step_continue 63 hsc1 h1 h2, EReal.toReal_coe,
    show (0 : ℝ) + 1.5 = 1.5 from by norm_num,
    show (63 : ℕ) = 62 + 1 from rfl,
    raymarchAux_step_hit 62 hsc2 hlt, hsp15]

/-- Witness for C9: the center ray of a 2 x 2 image of a single sphere hits
at travel 1.5, and the rendered pixel matches the spec shading formula. -/
theorem render_pixel_hit_shading_witness :
    (raymarch ⟨0, 0, 2⟩ (pixelRayDir 1 1 2 2 ⟨0, 0, 2⟩ ⟨0, 0, 0⟩) [sphereA]
      = some (1.5, some { albedo := some ⟨1, 0, 0⟩ }, ⟨0, 0, 0.5⟩)) ∧
    render_pixel 1 1 2 2 ⟨0, 0, 2⟩ ⟨0, 0, 0⟩ [sphereA] ⟨0, -1, 0⟩
      = shadeSpec
          (((some { albedo := some ⟨1, 0, 0⟩ } : Option Material).getD
            {}).albedo.getD ⟨0.7, 0.7, 0.7⟩)
          (((some { albedo := some ⟨1, 0, 0⟩ } : Option Material).getD
            {}).emissive.getD ⟨0, 0, 0⟩)
          (((some { albedo := some ⟨1, 0, 0⟩ } : Option Material).getD
            {}).emissiveStrength.getD 0)
          (calculate_normal ⟨0, 0, 0.5⟩ [sphereA]) ⟨0, -1, 0⟩ := by
  have hh : raymarch ⟨0, 0, 2⟩
      (pixelRayDir 1 1 2 2 ⟨0, 0, 2⟩ ⟨0, 0, 0⟩) [sphereA]
      = some (1.5, some { albedo := some ⟨1, 0, 0⟩ }, ⟨0, 0, 0.5⟩) := by
    rw [pixelRayDir_center]
    exact raymarch_sphereA
  exact ⟨hh, render_pixel_hit_shading 1 1 2 2 ⟨0, 0, 2⟩ ⟨0, 0, 0⟩ [sphereA]
    ⟨0, -1, 0⟩ 1.5 (some { albedo := some ⟨1, 0, 0⟩ }) ⟨0, 0, 0.5⟩ hh⟩

end Vehement

